import Mathlib

/-!
Verification development for the gas-flare detection-and-annotation pipeline
(`src/main.py`).  The Python code is shallowly embedded: floats become
rationals (`ℚ`), Python dicts become association lists, the opaque YOLO
capability and the OpenCV drawing primitives are parameters (function-valued
records), and the HTTP/file effects of the `/process` endpoint are made
explicit as a record of reads and writes paired with an `Except` result that
mirrors Python exception flow.
-/

set_option maxRecDepth 4000

/-- BGR color triple, as used by the OpenCV bindings. -/
def Color : Type := Nat × Nat × Nat

instance : DecidableEq Color := by
  unfold Color
  infer_instance

/-- One canonical detection record, as built by `process_with_yolo`
(`src/main.py` lines 91-103).  The Python dict key `class` is a Lean keyword,
so the field is named `class_label` here. -/
structure Detection where
  class_label : String
  class_id : Nat
  confidence : ℚ
  x : ℚ
  y : ℚ
  width : ℚ
  height : ℚ
  x1 : ℚ
  y1 : ℚ
  x2 : ℚ
  y2 : ℚ
deriving DecidableEq

/-- One raw row of the model output: `box.xyxy[0]`, `box.conf[0]`,
`box.cls[0]` (`src/main.py` lines 78-80). -/
structure RawBox where
  x1 : ℚ
  y1 : ℚ
  x2 : ℚ
  y2 : ℚ
  conf : ℚ
  cls : Nat
deriving DecidableEq

/-- The argument record of the single `model.predict(...)` call in
`process_with_yolo` (`src/main.py` lines 60-67).  Constant arguments
(`device`, `verbose`, `save`) are omitted; `source`, `conf` and `iou` are
kept because the claims are about what reaches the capability. -/
structure PredictCall where
  source : String
  conf : ℚ
  iou : ℚ
deriving DecidableEq

/-- The opaque detection capability: the label table `model.names` and the
inference entry point.  `predict` returning `none` models the
`results[0].boxes is None` / empty-results branch (`src/main.py` lines
72-75); `some rows` models a non-empty `boxes` collection. -/
structure Model where
  names : List (Nat × String)
  predict : PredictCall → Option (List RawBox)

/-- Python exceptions that flow through the endpoint: FastAPI
`HTTPException(status_code, detail)` and `ValueError(msg)`. -/
inductive PyExc where
  | httpException (status : Nat) (detail : String)
  | valueError (msg : String)
deriving DecidableEq

/-- Embedding of Python `str(e)` on the exceptions above: starlette's
`HTTPException.__str__` yields `"{status_code}: {detail}"`;
`str(ValueError(msg))` yields `msg`. -/
def pyStr : PyExc → String
  | .httpException s d => toString s ++ ": " ++ d
  | .valueError m => m

/-- Embedding of `model.names.get(class_id)`: first binding of the key in
the association-list embedding of the Python dict. -/
def namesGet (names : List (Nat × String)) (id : Nat) : Option String :=
  (names.find? (fun p => p.1 == id)).map Prod.snd

/-- Conversion of one raw model row into a `Detection`
(`src/main.py` lines 78-103): label fallback `class_<id>`, derived center
and size, corner coordinates copied through. -/
def convertBox (names : List (Nat × String)) (b : RawBox) : Detection :=
  let class_name := (namesGet names b.cls).getD ("class_" ++ toString b.cls)
  { class_label := class_name
    class_id := b.cls
    confidence := b.conf
    x := (b.x1 + b.x2) / 2
    y := (b.y1 + b.y2) / 2
    width := b.x2 - b.x1
    height := b.y2 - b.y1
    x1 := b.x1
    y1 := b.y1
    x2 := b.x2
    y2 := b.y2 }

/-- Embedding of `process_with_yolo` (`src/main.py` lines 53-105).  Raises `ValueError`
when the model was never loaded; otherwise calls the capability exactly once
with the threshold it was given and maps the raw rows to `Detection`
records.  The returned `PredictCall` is the trace of the arguments that were
passed to the opaque capability. -/
def process_with_yolo (model : Option Model) (image_path : String)
    (confidence_threshold : ℚ) : Except PyExc (PredictCall × List Detection) :=
  match model with
  | none => .error (.valueError "Модель не загружена")
  | some m =>
    let call : PredictCall :=
      { source := image_path, conf := confidence_threshold, iou := 45/100 }
    let detections :=
      match m.predict call with
      | none => []
      | some rows => rows.map (convertBox m.names)
    .ok (call, detections)

/-- Truncation toward zero, the semantics of Python `int(...)` on a float,
applied to the embedded rationals (`src/main.py` lines 115-118). -/
def truncQ (q : ℚ) : Int := Int.tdiv q.num q.den

/-- Floor of a rational, used by the round-half-even model of float
percent formatting. -/
def qfloor (q : ℚ) : Int := Int.fdiv q.num q.den

/-- Round half to even, the rounding used by Python float formatting. -/
def roundHalfEven (q : ℚ) : Int :=
  let f := qfloor q
  let frac := q - (f : ℚ)
  if frac < 1/2 then f
  else if 1/2 < frac then f + 1
  else if f % 2 = 0 then f else f + 1

/-- Model of the Python format spec `.0%` on a (rational-embedded) float:
multiply by 100, round to zero decimals, append a percent sign. -/
def formatPercent0 (c : ℚ) : String :=
  toString (roundHalfEven (c * 100)) ++ "%"

/-- Label text built for one detection (`src/main.py` line 133):
f-string of the class name, a space, and the percent-formatted confidence. -/
def labelText (class_name : String) (confidence : ℚ) : String :=
  class_name ++ " " ++ formatPercent0 confidence

/-- Per-class color table with string keys (`src/main.py` lines 44-51).
The Python `COLORS` dict mixes string and int keys, which never collide;
it is split into two association lists here. -/
def COLORS_byLabel : List (String × Color) :=
  [("flare", (0, 0, 255)), ("fire", (0, 165, 255)), ("smoke", (128, 128, 128))]

/-- Per-class color table with int keys (`src/main.py` lines 48-50). -/
def COLORS_byId : List (Nat × Color) :=
  [(0, (0, 0, 255)), (1, (0, 165, 255)), (2, (128, 128, 128))]

/-- Embedding of `COLORS.get(class_name, COLORS.get(class_id, (255, 255, 255)))`
(`src/main.py` line 126): three-tier lookup, label first, then id, then the
default white. -/
def selectColor (class_name : String) (class_id : Nat) : Color :=
  match (COLORS_byLabel.find? (fun p => p.1 == class_name)).map Prod.snd with
  | some c => c
  | none =>
    match (COLORS_byId.find? (fun p => p.1 == class_id)).map Prod.snd with
    | some c => c
    | none => (255, 255, 255)

/-- An image buffer: rows of BGR pixels (the numpy array, value-level). -/
structure Image where
  pixels : List (List Color)
deriving DecidableEq

/-- Row count of the buffer, `image.shape[0]`. -/
def Image.height (im : Image) : Nat := im.pixels.length

/-- Column count of the buffer, `image.shape[1]`. -/
def Image.width (im : Image) : Nat := (im.pixels.head?.map List.length).getD 0

/-- Value of the OpenCV constant `cv2.FONT_HERSHEY_SIMPLEX`. -/
def FONT_HERSHEY_SIMPLEX : Nat := 0

/-- The OpenCV drawing primitives used by `draw_predictions`, treated as an
opaque external capability (like the model): `rectangle img pt1 pt2 color
thickness`, `putText img text org font fontScale color thickness`, and
`getTextSize text font fontScale thickness` returning `((width, height),
baseline)`.  The in-place mutation of the Python originals is embedded as
buffer-to-buffer functions applied to an explicit buffer. -/
structure Cv2 where
  rectangle : Image → (Int × Int) → (Int × Int) → Color → Int → Image
  putText : Image → String → (Int × Int) → Nat → ℚ → Color → Nat → Image
  getTextSize : String → Nat → ℚ → Nat → (Nat × Nat) × Nat

/-- The label-background rectangle of one detection. -/
structure TextBg where
  x1 : Int
  y1 : Int
  x2 : Int
  y2 : Int
deriving DecidableEq

/-- Coordinates of the filled label-background rectangle
(`src/main.py` lines 145-148): `text_bg_y1 = max(0, y1 - text_height - 10)`,
`text_bg_y2 = y1`, `text_bg_x1 = x1`, `text_bg_x2 = x1 + text_width`. -/
def textBg (x1 y1 : Int) (text_width text_height : Nat) : TextBg :=
  { x1 := x1
    y1 := max 0 (y1 - text_height - 10)
    x2 := x1 + text_width
    y2 := y1 }

/-- The two buffers alive inside `draw_predictions`: the caller's source
array and the working copy `annotated = image.copy()`.  Keeping both makes
the frame property (the source is never written) a statement, not a
convention. -/
structure RenderState where
  source : Image
  annotated : Image

/-- Body of the per-detection loop of `draw_predictions`
(`src/main.py` lines 113-167).  Every OpenCV call targets the `annotated`
buffer, exactly as in the source. -/
def drawDetection (cv : Cv2) (s : RenderState) (d : Detection) : RenderState :=
  let x1 := truncQ d.x1
  let y1 := truncQ d.y1
  let x2 := truncQ d.x2
  let y2 := truncQ d.y2
  let class_name := d.class_label
  let class_id := d.class_id
  let confidence := d.confidence
  let color := selectColor class_name class_id
  let thickness : Int := if confidence > 1/2 then 3 else 2
  let a1 := cv.rectangle s.annotated (x1, y1) (x2, y2) color thickness
  let label := labelText class_name confidence
  let font := FONT_HERSHEY_SIMPLEX
  let font_scale : ℚ := 6/10
  let text_thickness : Nat := 2
  let sizes := cv.getTextSize label font font_scale text_thickness
  let text_width := sizes.1.1
  let text_height := sizes.1.2
  let bg := textBg x1 y1 text_width text_height
  let a2 := cv.rectangle a1 (bg.x1, bg.y1) (bg.x2, bg.y2) color (-1)
  let a3 := cv.putText a2 label (x1, y1 - 5) font font_scale (255, 255, 255) text_thickness
  { s with annotated := a3 }

/-- State-passing embedding of `draw_predictions` (`src/main.py` lines
107-169): start from `annotated = image.copy()` and run the loop. -/
def draw_predictions_run (cv : Cv2) (image : Image) (detections : List Detection) :
    RenderState :=
  detections.foldl (drawDetection cv) { source := image, annotated := image }

/-- Return value of `draw_predictions`: the annotated buffer. -/
def draw_predictions (cv : Cv2) (image : Image) (detections : List Detection) :
    Image :=
  (draw_predictions_run cv image detections).annotated

/-- Embedding of `class_stats.get(class_name, 0)` on the association-list
dict: value of the first binding of the key, default otherwise. -/
def dictGetD (m : List (String × Nat)) (k : String) (d : Nat) : Nat :=
  (((m.find? (fun p => p.1 == k)).map Prod.snd)).getD d

/-- Embedding of the Python dict assignment `m[k] = v`: rebind the key in
place when present, append a fresh binding (insertion order) otherwise. -/
def dictSet (m : List (String × Nat)) (k : String) (v : Nat) : List (String × Nat) :=
  if m.any (fun p => p.1 == k) then
    m.map (fun p => if p.1 == k then (k, v) else p)
  else
    m ++ [(k, v)]

/-- One iteration of the statistics loop (`src/main.py` lines 953-955):
`class_stats[class_name] = class_stats.get(class_name, 0) + 1`. -/
def statsStep (m : List (String × Nat)) (d : Detection) : List (String × Nat) :=
  dictSet m d.class_label (dictGetD m d.class_label 0 + 1)

/-- The statistics aggregation of `process_image` (`src/main.py` lines
952-955): fold the loop body over the detection list, starting from the
empty dict. -/
def class_stats (detections : List Detection) : List (String × Nat) :=
  detections.foldl statsStep []

/-- Response payload of a successful `/process` request (`src/main.py`
lines 960-976).  `processing_time` (wall-clock) and the constant
`model_info`/`success` fields are outside the embedded fragment. -/
structure Payload where
  original_image : String
  result_image : String
  total_detections : Nat
  stats : List (String × Nat)
  detections : List Detection
  image_width : Nat
  image_height : Nat
  confidence_threshold : ℚ
deriving DecidableEq

/-- File-system and upload effects of one `/process` request: whether
`file.read()` ran, the filenames written under `static/uploads`, and the
filenames written under `static/results`. -/
structure Effects where
  uploadRead : Bool
  uploadWrites : List String
  resultWrites : List String
deriving DecidableEq

/-- Per-request environment of the `/process` endpoint: the global model,
the OpenCV capability, `os.path.splitext(file.filename)[1] or ".jpg"`, the
fresh `uuid.uuid4()` string, and the result of `cv2.imread` on the saved
upload (`none` = undecodable content). -/
structure Env where
  model : Option Model
  cv : Cv2
  file_extension : String
  uuid4 : String
  decode : Option Image

/-- Body of the `try:` block of `process_image` (`src/main.py` lines
917-976): save the upload, decode it, run the detector, render, persist the
result, aggregate statistics, assemble the payload.  Raised exceptions are
returned as `Except.error` together with the effects performed so far. -/
def process_body (env : Env) (confidence : ℚ) : Effects × Except PyExc Payload :=
  let filename := env.uuid4 ++ env.file_extension
  let eff : Effects := { uploadRead := true, uploadWrites := [filename], resultWrites := [] }
  match env.decode with
  | none => (eff, .error (.httpException 400 "Не удалось загрузить изображение"))
  | some image =>
    match process_with_yolo env.model filename confidence with
    | .error e => (eff, .error e)
    | .ok (_call, detections) =>
      let annotated := draw_predictions env.cv image detections
      let result_filename := "result_" ++ filename
      let eff2 : Effects := { eff with resultWrites := [result_filename] }
      let _ := annotated
      (eff2, .ok
        { original_image := filename
          result_image := result_filename
          total_detections := detections.length
          stats := class_stats detections
          detections := detections
          image_width := image.width
          image_height := image.height
          confidence_threshold := confidence })

/-- The `except Exception` handler of `process_image` (`src/main.py` lines
978-982): any exception escaping the `try:` block — FastAPI
`HTTPException`s included, since they subclass `Exception` — is re-raised
as `HTTPException(500, "Ошибка обработки: " + str(e))`. -/
def exceptWrap : Effects × Except PyExc Payload → Effects × Except PyExc Payload
  | (eff, .ok p) => (eff, .ok p)
  | (eff, .error e) =>
    (eff, .error (.httpException 500 ("Ошибка обработки: " ++ pyStr e)))

/-- Embedding of the `/process` endpoint `process_image` (`src/main.py`
lines 908-982).  The `model is None` guard runs before the `try:` block and
before any read or write; everything else runs inside the handler above. -/
def process_image (env : Env) (confidence : ℚ) : Effects × Except PyExc Payload :=
  match env.model with
  | none =>
    ({ uploadRead := false, uploadWrites := [], resultWrites := [] },
     .error (.httpException 503 "Модель YOLO не загружена"))
  | some _ => exceptWrap (process_body env confidence)

/-- The statistics-loop invariant: the dict has no duplicate keys, every
stored count is positive, its key set is the set of labels processed so
far, and its counts sum to the number of processed detections. -/
def statsInv (m : List (String × Nat)) (seen : List String) : Prop :=
  (m.map Prod.fst).Nodup ∧
  (∀ p ∈ m, 0 < p.2) ∧
  (∀ k, k ∈ m.map Prod.fst ↔ k ∈ seen) ∧
  (m.map Prod.snd).sum = seen.length

/-- Fixture: OpenCV capability whose primitives return the buffer unchanged
and report a 40×11 text box. -/
def cvWit : Cv2 :=
  { rectangle := fun a _ _ _ _ => a
    putText := fun a _ _ _ _ _ _ => a
    getTextSize := fun _ _ _ _ => ((40, 11), 2) }

/-- Fixture: a 2×2 image. -/
def imWit : Image := { pixels := [[(1, 2, 3), (4, 5, 6)], [(7, 8, 9), (0, 0, 0)]] }

/-- Fixture: a flare detection at the top-left corner. -/
def detWit : Detection :=
  { class_label := "flare", class_id := 0, confidence := Rat.divInt 9 10
    x := 1, y := 1, width := 2, height := 2, x1 := 0, y1 := 0, x2 := 2, y2 := 2 }

/-- Fixture: a smoke detection. -/
def detWit2 : Detection := { detWit with class_label := "smoke", class_id := 2 }

/-- Fixture: a raw model row with class id 7. -/
def rawWit7 : RawBox :=
  { x1 := 0, y1 := 0, x2 := 2, y2 := 2, conf := Rat.divInt 1 2, cls := 7 }

/-- Fixture: a three-class label table with no entry for id 7. -/
def namesWit : List (Nat × String) := [(0, "flare"), (1, "fire"), (2, "smoke")]

/-- Fixture: a model that returns one raw row per inference call. -/
def mWit : Model := { names := namesWit, predict := fun _ => some [rawWit7] }

/-- Fixture: a model that returns no boxes. -/
def mEmpty : Model := { names := [], predict := fun _ => none }

/-- Fixture: request environment with the model never loaded. -/
def envNoModel : Env :=
  { model := none, cv := cvWit, file_extension := ".jpg", uuid4 := "u", decode := none }

/-- Fixture: request environment with a loaded model and undecodable upload
content (`cv2.imread` returns `None`). -/
def envBadImage : Env :=
  { model := some mEmpty, cv := cvWit, file_extension := ".jpg", uuid4 := "u", decode := none }


theorem any_key_iff (m : List (String × Nat)) (k : String) :
    m.any (fun p => p.1 == k) = true ↔ k ∈ m.map Prod.fst := by
  induction m with
  | nil => simp
  | cons a t ih =>
    simp only [List.any_cons, Bool.or_eq_true, List.map_cons, List.mem_cons, ih, beq_iff_eq]
    constructor
    · rintro (h | h)
      · exact Or.inl h.symm
      · exact Or.inr h
    · rintro (h | h)
      · exact Or.inl h.symm
      · exact Or.inr h

theorem update_id_of_not_mem (t : List (String × Nat)) (k : String) (v : Nat)
    (h : k ∉ t.map Prod.fst) :
    t.map (fun p => if p.1 == k then (k, v) else p) = t := by
  induction t with
  | nil => rfl
  | cons a t ih =>
    simp only [List.map_cons, List.mem_cons, not_or] at h
    have ha : ¬(a.1 == k) = true := by
      simp only [beq_iff_eq]
      intro he
      exact h.1 he.symm
    simp only [List.map_cons, if_neg ha]
    rw [ih h.2]

theorem dictGetD_cons_self (a : String × Nat) (t : List (String × Nat)) (k : String)
    (h : a.1 = k) : dictGetD (a :: t) k 0 = a.2 := by
  unfold dictGetD
  rw [List.find?_cons_of_pos _ (by simpa using h)]
  rfl

theorem dictGetD_cons_ne (a : String × Nat) (t : List (String × Nat)) (k : String)
    (h : ¬a.1 = k) : dictGetD (a :: t) k 0 = dictGetD t k 0 := by
  unfold dictGetD
  rw [List.find?_cons_of_neg _ (by simpa using h)]

theorem sum_update_present (m : List (String × Nat)) (k : String) (v : Nat)
    (hnd : (m.map Prod.fst).Nodup) (hmem : k ∈ m.map Prod.fst) :
    ((m.map (fun p => if p.1 == k then (k, v) else p)).map Prod.snd).sum
      = (m.map Prod.snd).sum + v - dictGetD m k 0 ∧
    dictGetD m k 0 ≤ (m.map Prod.snd).sum := by
  induction m with
  | nil => simp at hmem
  | cons a t ih =>
    simp only [List.map_cons, List.nodup_cons] at hnd
    by_cases hk : a.1 = k
    · have hnott : k ∉ t.map Prod.fst := by
        rw [← hk]; exact hnd.1
      rw [dictGetD_cons_self a t k hk]
      simp only [List.map_cons, if_pos (by simpa using hk : (a.1 == k) = true)]
      rw [update_id_of_not_mem t k v hnott]
      simp only [List.sum_cons]
      omega
    · have hmem' : k ∈ t.map Prod.fst := by
        rw [List.map_cons] at hmem
        rcases List.mem_cons.mp hmem with h | h
        · exact absurd h.symm hk
        · exact h
      rw [dictGetD_cons_ne a t k hk]
      have ihr := ih hnd.2 hmem'
      simp only [List.map_cons, if_neg (by simpa using hk : ¬(a.1 == k) = true)]
      simp only [List.sum_cons]
      omega

theorem keys_update (m : List (String × Nat)) (k : String) (v : Nat) :
    (m.map (fun p => if p.1 == k then (k, v) else p)).map Prod.fst = m.map Prod.fst := by
  induction m with
  | nil => rfl
  | cons a t ih =>
    simp only [List.map_cons]
    by_cases hk : a.1 = k
    · rw [if_pos (by simpa using hk : (a.1 == k) = true)]
      simp only [ih]
      rw [hk]
    · rw [if_neg (by simpa using hk : ¬(a.1 == k) = true)]
      simp only [ih]

theorem pos_update (m : List (String × Nat)) (k : String) (v : Nat)
    (hpos : ∀ p ∈ m, 0 < p.2) (hv : 0 < v) :
    ∀ p ∈ m.map (fun p => if p.1 == k then (k, v) else p), 0 < p.2 := by
  intro p hp
  rcases List.mem_map.mp hp with ⟨q, hq, he⟩
  by_cases hk : q.1 = k
  · rw [if_pos (by simpa using hk : (q.1 == k) = true)] at he
    rw [← he]
    exact hv
  · rw [if_neg (by simpa using hk : ¬(q.1 == k) = true)] at he
    rw [← he]
    exact hpos q hq

theorem statsStep_spec (m : List (String × Nat)) (d : Detection)
    (hnd : (m.map Prod.fst).Nodup) (hpos : ∀ p ∈ m, 0 < p.2) :
    ((statsStep m d).map Prod.fst).Nodup ∧
    (∀ p ∈ statsStep m d, 0 < p.2) ∧
    (∀ k, k ∈ (statsStep m d).map Prod.fst ↔
      (k ∈ m.map Prod.fst ∨ k = d.class_label)) ∧
    ((statsStep m d).map Prod.snd).sum = (m.map Prod.snd).sum + 1 := by
  unfold statsStep dictSet
  by_cases hmem : d.class_label ∈ m.map Prod.fst
  · rw [if_pos ((any_key_iff m d.class_label).mpr hmem)]
    have hsum := sum_update_present m d.class_label (dictGetD m d.class_label 0 + 1) hnd hmem
    refine ⟨?_, ?_, ?_, ?_⟩
    · rw [keys_update]; exact hnd
    · exact pos_update m d.class_label _ hpos (Nat.succ_pos _)
    · intro k
      rw [keys_update]
      constructor
      · exact Or.inl
      · rintro (h | h)
        · exact h
        · rw [h]; exact hmem
    · omega
  · rw [if_neg (by
      intro hany
      exact hmem ((any_key_iff m d.class_label).mp hany))]
    have hget : dictGetD m d.class_label 0 = 0 := by
      unfold dictGetD
      have : m.find? (fun p => p.1 == d.class_label) = none := by
        rw [List.find?_eq_none]
        intro p hp hbeq
        exact hmem (List.mem_map.mpr ⟨p, hp, by simpa using hbeq⟩)
      rw [this]
      rfl
    refine ⟨?_, ?_, ?_, ?_⟩
    · simp only [List.map_append, List.map_cons, List.map_nil]
      rw [List.nodup_append]
      refine ⟨hnd, List.nodup_singleton _, ?_⟩
      intro a ha hb
      simp only [List.mem_singleton] at hb
      rw [hb] at ha
      exact hmem ha
    · intro p hp
      rcases List.mem_append.mp hp with h | h
      · exact hpos p h
      · simp only [List.mem_singleton] at h
        rw [h]
        exact Nat.succ_pos _
    · intro k
      simp only [List.map_append, List.map_cons, List.map_nil, List.mem_append,
        List.mem_singleton]
    · simp only [List.map_append, List.map_cons, List.map_nil, List.sum_append,
        List.sum_cons, List.sum_nil]
      omega

theorem class_stats_inv (ds : List Detection) :
    ∀ (m : List (String × Nat)) (seen : List String), statsInv m seen →
      statsInv (ds.foldl statsStep m) (seen ++ ds.map Detection.class_label) := by
  induction ds with
  | nil =>
    intro m seen h
    simpa using h
  | cons d ds ih =>
    intro m seen h
    obtain ⟨hnd, hpos, hkeys, hsum⟩ := h
    have hstep := statsStep_spec m d hnd hpos
    have hinv' : statsInv (statsStep m d) (seen ++ [d.class_label]) := by
      refine ⟨hstep.1, hstep.2.1, ?_, ?_⟩
      · intro k
        rw [hstep.2.2.1 k, hkeys k]
        simp [List.mem_append]
      · rw [hstep.2.2.2, hsum]
        simp
    have := ih (statsStep m d) (seen ++ [d.class_label]) hinv'
    simpa [List.append_assoc] using this

/-- C3: for every detection list `D`, the `class_stats` aggregation of
`process_image` has as keys exactly the labels occurring in `D`, stores no
zero count, and its counts sum to `D.length`. -/
theorem C3_class_stats_spec (D : List Detection) :
    (∀ k, (∃ v, (k, v) ∈ class_stats D) ↔ k ∈ D.map Detection.class_label) ∧
    (∀ k v, (k, v) ∈ class_stats D → 0 < v) ∧
    ((class_stats D).map Prod.snd).sum = D.length := by
  have hbase : statsInv ([] : List (String × Nat)) ([] : List String) := by
    refine ⟨by simp, by simp, by simp, by simp⟩
  have h := class_stats_inv D [] [] hbase
  simp only [List.nil_append] at h
  obtain ⟨hnd, hpos, hkeys, hsum⟩ := h
  unfold class_stats
  refine ⟨?_, ?_, ?_⟩
  · intro k
    rw [← hkeys k]
    constructor
    · rintro ⟨v, hv⟩
      exact List.mem_map.mpr ⟨(k, v), hv, rfl⟩
    · intro hk
      rcases List.mem_map.mp hk with ⟨p, hp, he⟩
      exact ⟨p.2, by rw [← he]; exact hp⟩
  · intro k v hv
    exact hpos (k, v) hv
  · rw [hsum]
    simp

theorem C3_witness :
    ((class_stats [detWit, detWit2, detWit]).map Prod.snd).sum = 3 := by
  simpa using (C3_class_stats_spec [detWit, detWit2, detWit]).2.2

/-- C1 counterexample: with the threshold 0, which lies outside `(0, 1]`,
`process_with_yolo` succeeds and its trace shows the capability was invoked
with `conf = 0` — the value was neither clamped into range nor rejected
with an error. -/
theorem C1_counterexample :
    process_with_yolo (some mEmpty) "upload.jpg" 0 =
      Except.ok ({ source := "upload.jpg", conf := 0, iou := 45/100 }, []) ∧
    ¬ (0 : ℚ) < 0 := by
  constructor
  · rfl
  · decide

/-- C1 (amended): `process_with_yolo` performs no range check at all — for
every threshold, in range or not, the call succeeds and the capability
receives exactly the threshold the caller supplied. -/
theorem C1_amended_passthrough (m : Model) (path : String) (conf : ℚ) :
    ∃ dets, process_with_yolo (some m) path conf =
      Except.ok ({ source := path, conf := conf, iou := 45/100 }, dets) :=
  ⟨_, rfl⟩

/-- C2 (code bug): with the model loaded and undecodable upload bytes, the
endpoint's own `HTTPException(400, "Не удалось загрузить изображение")` is
caught by the blanket `except Exception` and re-raised as an HTTP 500 — an
internal-failure status, not the `InvalidImage` caller error the claim
requires.  The other half of the claim does hold: no artifact is written
under the results namespace (`resultWrites = []`). -/
theorem C2_invalid_image_wrapped_500 :
    process_image envBadImage (Rat.divInt 1 4) =
      ({ uploadRead := true, uploadWrites := ["u.jpg"], resultWrites := [] },
       .error (.httpException 500
         "Ошибка обработки: 400: Не удалось загрузить изображение")) := rfl

/-- C4: rendering the empty detection list returns the source image
unchanged (a pixel-identical copy), and rendering is total — it produces an
output image for every detection list, whatever the drawing primitives do. -/
theorem C4_render_empty_copy (cv : Cv2) (image : Image) :
    draw_predictions cv image [] = image ∧
    ∀ ds : List Detection, ∃ out, draw_predictions cv image ds = out :=
  ⟨rfl, fun _ => ⟨_, rfl⟩⟩

theorem draw_run_inv (cv : Cv2)
    (hrect : ∀ a p q c t, (cv.rectangle a p q c t).height = a.height ∧
      (cv.rectangle a p q c t).width = a.width)
    (htext : ∀ a s p f sc c t, (cv.putText a s p f sc c t).height = a.height ∧
      (cv.putText a s p f sc c t).width = a.width) :
    ∀ (ds : List Detection) (s : RenderState),
      (ds.foldl (drawDetection cv) s).source = s.source ∧
      (ds.foldl (drawDetection cv) s).annotated.height = s.annotated.height ∧
      (ds.foldl (drawDetection cv) s).annotated.width = s.annotated.width := by
  intro ds
  induction ds with
  | nil => intro s; exact ⟨rfl, rfl, rfl⟩
  | cons d ds ih =>
    intro s
    rw [List.foldl_cons]
    have hstep := ih (drawDetection cv s d)
    have hsrc : (drawDetection cv s d).source = s.source := rfl
    have hdim : (drawDetection cv s d).annotated.height = s.annotated.height ∧
        (drawDetection cv s d).annotated.width = s.annotated.width := by
      unfold drawDetection
      constructor
      · exact ((htext _ _ _ _ _ _ _).1.trans (hrect _ _ _ _ _).1).trans (hrect _ _ _ _ _).1
      · exact ((htext _ _ _ _ _ _ _).2.trans (hrect _ _ _ _ _).2).trans (hrect _ _ _ _ _).2
    exact ⟨hstep.1.trans hsrc,
           (hstep.2.1.trans hdim.1),
           (hstep.2.2.trans hdim.2)⟩

/-- C5: for dimension-preserving drawing primitives, `draw_predictions`
never writes the caller's buffer — after the run the `source` buffer is the
original image — and the returned annotated copy has the source's
dimensions. -/
theorem C5_render_no_mutation (cv : Cv2) (image : Image) (ds : List Detection)
    (hrect : ∀ a p q c t, (cv.rectangle a p q c t).height = a.height ∧
      (cv.rectangle a p q c t).width = a.width)
    (htext : ∀ a s p f sc c t, (cv.putText a s p f sc c t).height = a.height ∧
      (cv.putText a s p f sc c t).width = a.width) :
    (draw_predictions_run cv image ds).source = image ∧
    (draw_predictions cv image ds).height = image.height ∧
    (draw_predictions cv image ds).width = image.width := by
  have h := draw_run_inv cv hrect htext ds { source := image, annotated := image }
  exact ⟨h.1, h.2.1, h.2.2⟩

theorem C5_witness :
    (draw_predictions_run cvWit imWit [detWit]).source = imWit ∧
    (draw_predictions cvWit imWit [detWit]).height = imWit.height ∧
    (draw_predictions cvWit imWit [detWit]).width = imWit.width :=
  C5_render_no_mutation cvWit imWit [detWit]
    (fun _ _ _ _ _ => ⟨rfl, rfl⟩) (fun _ _ _ _ _ _ _ => ⟨rfl, rfl⟩)

/-- C6: when the label table has no entry for a raw row's class id, the
row conversion of `process_with_yolo` synthesizes the label `class_<id>`
instead of failing (the resolution is a total function). -/
theorem C6_label_fallback (names : List (Nat × String)) (b : RawBox)
    (h : namesGet names b.cls = none) :
    (convertBox names b).class_label = "class_" ++ toString b.cls := by
  unfold convertBox
  rw [h]
  rfl

theorem C6_witness :
    (convertBox namesWit rawWit7).class_label = "class_7" :=
  (C6_label_fallback namesWit rawWit7 (by decide)).trans (by decide)

/-- C7: the renderer's color choice is the exact three-tier fallback — a
binding of `class_label` in the string-keyed table wins, otherwise a
binding of `class_id` in the int-keyed table, otherwise the default white
`(255, 255, 255)`; the lookup is total. -/
theorem C7_color_three_tier (label : String) (id : Nat) :
    (∀ c, (label, c) ∈ COLORS_byLabel → selectColor label id = c) ∧
    (label ∉ COLORS_byLabel.map Prod.fst →
      ∀ c, (id, c) ∈ COLORS_byId → selectColor label id = c) ∧
    (label ∉ COLORS_byLabel.map Prod.fst → id ∉ COLORS_byId.map Prod.fst →
      selectColor label id = (255, 255, 255)) := by
  have hnone : label ∉ COLORS_byLabel.map Prod.fst →
      COLORS_byLabel.find? (fun p => p.1 == label) = none := by
    intro h
    rw [List.find?_eq_none]
    intro p hp hbeq
    exact h (List.mem_map.mpr ⟨p, hp, by simpa using hbeq⟩)
  have hnoneId : id ∉ COLORS_byId.map Prod.fst →
      COLORS_byId.find? (fun p => p.1 == id) = none := by
    intro h
    rw [List.find?_eq_none]
    intro p hp hbeq
    exact h (List.mem_map.mpr ⟨p, hp, by simpa using hbeq⟩)
  refine ⟨?_, ?_, ?_⟩
  · intro c hc
    have hd : (label = "flare" ∧ c = (0, 0, 255)) ∨
        (label = "fire" ∧ c = (0, 165, 255)) ∨
        (label = "smoke" ∧ c = (128, 128, 128)) := by
      simpa [COLORS_byLabel, Prod.mk.injEq] using hc
    rcases hd with ⟨h1, h2⟩ | ⟨h1, h2⟩ | ⟨h1, h2⟩ <;> rw [h1, h2] <;> rfl
  · intro hlab c hc
    unfold selectColor
    rw [hnone hlab]
    have hd : (id = 0 ∧ c = (0, 0, 255)) ∨
        (id = 1 ∧ c = (0, 165, 255)) ∨
        (id = 2 ∧ c = (128, 128, 128)) := by
      simpa [COLORS_byId, Prod.mk.injEq] using hc
    rcases hd with ⟨h1, h2⟩ | ⟨h1, h2⟩ | ⟨h1, h2⟩ <;> rw [h1, h2] <;> rfl
  · intro hlab hid
    unfold selectColor
    rw [hnone hlab, hnoneId hid]
    rfl

theorem C7_witness :
    selectColor "flare" 9 = (0, 0, 255) ∧
    selectColor "zzz" 1 = (0, 165, 255) ∧
    selectColor "zzz" 9 = (255, 255, 255) :=
  ⟨(C7_color_three_tier "flare" 9).1 (0, 0, 255) (by decide),
   (C7_color_three_tier "zzz" 1).2.1 (by decide) (0, 165, 255) (by decide),
   (C7_color_three_tier "zzz" 9).2.2 (by decide) (by decide)⟩

/-- C8: the label drawn for a detection is the class name, a space, and the
percent-formatted confidence; the filled label-background rectangle ends at
the box's top edge (`y2 = y1`), its top is never negative, and whenever the
box's top edge is within the text height of the image's top border
(including `y1 = 0`) the top is clamped to exactly 0. -/
theorem C8_label_clamp (cname : String) (conf : ℚ) (x1 y1 : Int) (tw th : Nat) :
    labelText cname conf = cname ++ " " ++ formatPercent0 conf ∧
    (textBg x1 y1 tw th).y2 = y1 ∧
    (textBg x1 y1 tw th).x1 = x1 ∧
    0 ≤ (textBg x1 y1 tw th).y1 ∧
    (y1 ≤ th → (textBg x1 y1 tw th).y1 = 0) := by
  refine ⟨rfl, rfl, rfl, ?_, ?_⟩
  · unfold textBg
    exact le_max_left 0 _
  · intro hle
    unfold textBg
    simp only
    rw [max_eq_left]
    omega

theorem C8_witness :
    labelText "flare" (Rat.divInt 9 10) = "flare" ++ " " ++ formatPercent0 (Rat.divInt 9 10) ∧
    (textBg 5 0 40 11).y2 = 0 ∧
    (textBg 5 0 40 11).x1 = 5 ∧
    0 ≤ (textBg 5 0 40 11).y1 ∧
    (textBg 5 0 40 11).y1 = 0 := by
  have h := C8_label_clamp "flare" (Rat.divInt 9 10) 5 0 40 11
  exact ⟨h.1, h.2.1, h.2.2.1, h.2.2.2.1, h.2.2.2.2 (by decide)⟩

/-- C9: every detection record produced by `process_with_yolo` satisfies
the derived-field equations: center = midpoint of the corners, size =
difference of the corners. -/
theorem C9_derived_fields (m : Model) (path : String) (conf : ℚ)
    (call : PredictCall) (dets : List Detection) (d : Detection)
    (hrun : process_with_yolo (some m) path conf = Except.ok (call, dets))
    (hd : d ∈ dets) :
    d.x = (d.x1 + d.x2) / 2 ∧ d.y = (d.y1 + d.y2) / 2 ∧
    d.width = d.x2 - d.x1 ∧ d.height = d.y2 - d.y1 := by
  unfold process_with_yolo at hrun
  simp only at hrun
  have hdets : dets =
      (match m.predict { source := path, conf := conf, iou := 45/100 } with
       | none => []
       | some rows => rows.map (convertBox m.names)) := by
    have := (Except.ok.injEq _ _).mp hrun
    exact (Prod.mk.injEq _ _ _ _ |>.mp this).2.symm
  rw [hdets] at hd
  rcases hpred : m.predict { source := path, conf := conf, iou := 45/100 } with _ | rows
  · rw [hpred] at hd
    simp at hd
  · rw [hpred] at hd
    simp only at hd
    rcases List.mem_map.mp hd with ⟨b, _, he⟩
    rw [← he]
    unfold convertBox
    exact ⟨rfl, rfl, rfl, rfl⟩

theorem C9_witness :
    (convertBox namesWit rawWit7).x =
      ((convertBox namesWit rawWit7).x1 + (convertBox namesWit rawWit7).x2) / 2 ∧
    (convertBox namesWit rawWit7).y =
      ((convertBox namesWit rawWit7).y1 + (convertBox namesWit rawWit7).y2) / 2 ∧
    (convertBox namesWit rawWit7).width =
      (convertBox namesWit rawWit7).x2 - (convertBox namesWit rawWit7).x1 ∧
    (convertBox namesWit rawWit7).height =
      (convertBox namesWit rawWit7).y2 - (convertBox namesWit rawWit7).y1 :=
  C9_derived_fields mWit "p" 1 { source := "p", conf := 1, iou := 45/100 }
    [convertBox namesWit rawWit7] (convertBox namesWit rawWit7) rfl
    (List.mem_singleton.mpr rfl)

/-- C10: when the model was never initialized, the `/process` endpoint
fails with the 503 service-unavailable error before reading the upload or
writing anything: no input artifact and no output artifact is stored. -/
theorem C10_model_unavailable (env : Env) (conf : ℚ) (h : env.model = none) :
    process_image env conf =
      ({ uploadRead := false, uploadWrites := [], resultWrites := [] },
       Except.error (.httpException 503 "Модель YOLO не загружена")) := by
  unfold process_image
  rw [h]

theorem C10_witness :
    process_image envNoModel (Rat.divInt 1 4) =
      ({ uploadRead := false, uploadWrites := [], resultWrites := [] },
       Except.error (.httpException 503 "Модель YOLO не загружена")) :=
  C10_model_unavailable envNoModel (Rat.divInt 1 4) rfl
